import Mathlib

/-!
Shallow embedding of the Delta-table scan provider
(`crates/providers/src/deltatable.rs`) and proofs about it.

Machine integers are modelled as `Nat`/`Int`; Rust `panic!` sites
(out-of-range indexing, `unwrap()`) are modelled by `Option` with `none`
standing for a panic; fallible operations return `Except`.
-/

set_option autoImplicit false

namespace DeltaScan

/-! ### Row selectors (parquet `RowSelector` / `RowSelection::from_filters`) -/

/-- `RowSelector` from the parquet crate: a run of rows to select or skip. -/
inductive RowSelector where
  | select (rowCount : Nat)
  | skip (rowCount : Nat)
deriving DecidableEq, Repr

/-- Run-length encoding of a boolean mask: maximal runs of equal values,
each with its length.  Built from the right. -/
def rle : List Bool → List (Bool × Nat)
  | [] => []
  | x :: xs =>
    match rle xs with
    | [] => [(x, 1)]
    | (y, n) :: rest => if x = y then (x, n + 1) :: rest else (x, 1) :: (y, n) :: rest

/-- `RowSelection::from_filters(&[mask.into()])` from the parquet crate:
maximal runs of `true` become `select` runs, maximal runs of `false`
become `skip` runs, in order. -/
def rowSelectionFromFilters (mask : List Bool) : List RowSelector :=
  (rle mask).map (fun p => if p.1 then RowSelector.select p.2 else RowSelector.skip p.2)

/-- Applying a selector list: expand each run back to one boolean per row,
`true` for selected rows, `false` for skipped rows. -/
def applySelectors : List RowSelector → List Bool
  | [] => []
  | RowSelector.select n :: rest => List.replicate n true ++ applySelectors rest
  | RowSelector.skip n :: rest => List.replicate n false ++ applySelectors rest

/-- Decoding a run-length encoding back to the underlying list. -/
def rleDecode (runs : List (Bool × Nat)) : List Bool :=
  runs.flatMap (fun p => List.replicate p.2 p.1)

theorem applySelectors_rowSelectionFromFilters_aux (runs : List (Bool × Nat)) :
    applySelectors (runs.map
      (fun p => if p.1 then RowSelector.select p.2 else RowSelector.skip p.2)) =
    rleDecode runs := by
  induction runs with
  | nil => rfl
  | cons p rest ih =>
    cases p with
    | mk b n =>
      cases b <;> simp [applySelectors, rleDecode, ih]

theorem rleDecode_rle (l : List Bool) : rleDecode (rle l) = l := by
  induction l with
  | nil => rfl
  | cons x xs ih =>
    simp only [rle]
    cases h : rle xs with
    | nil =>
      simp [h] at ih
      simp [rleDecode, ← ih]
    | cons p rest =>
      cases p with
      | mk y n =>
        by_cases hxy : x = y
        · subst hxy
          simp [h, rleDecode] at ih ⊢
          rw [List.replicate_succ]
          simp [ih]
        · simp [h, rleDecode, hxy] at ih ⊢
          exact ih

/-- The run-length selector built from a mask, when applied, reproduces the
mask: a row is selected exactly where the mask is `true`. -/
theorem applySelectors_rowSelectionFromFilters (mask : List Bool) :
    applySelectors (rowSelectionFromFilters mask) = mask := by
  rw [rowSelectionFromFilters, applySelectors_rowSelectionFromFilters_aux, rleDecode_rle]

/-! ### `get_row_group_access` -/

/-- `RowGroupAccess` from DataFusion: how a physical reader treats one
row group. -/
inductive RowGroupAccess where
  | Skip
  | Scan
  | Selection (sel : List RowSelector)
deriving DecidableEq, Repr

/-- `get_row_group_access` from `deltatable.rs`: classify one row group from
the `[row_group_row_start, row_group_row_start + row_group_num_rows)` slice
of the selection vector.  The all-`false` (Skip) test runs first, then the
all-`true` (Scan) test, otherwise a `RowSelection` is built from the slice.
Faithful to the source for `row_group_row_start + row_group_num_rows ≤`
vector length (beyond that the Rust slice indexing panics). -/
def get_row_group_access (selection_vector : List Bool)
    (row_group_row_start row_group_num_rows : Nat) : RowGroupAccess :=
  let slice := (selection_vector.drop row_group_row_start).take row_group_num_rows
  if slice.all (fun x => !x) then
    RowGroupAccess.Skip
  else if slice.all (fun x => x) then
    RowGroupAccess.Scan
  else
    RowGroupAccess.Selection (rowSelectionFromFilters slice)

/-! ### `get_full_selection_vector` -/

/-- `get_full_selection_vector` from `deltatable.rs`: allocate
`vec![true; total_rows]` and copy the raw vector over the prefix.
`copy_from_slice` into `new_selection_vector[..selection_vector.len()]`
panics when the raw vector is longer than `total_rows`; the panic is
modelled as `none`. -/
def get_full_selection_vector (selection_vector : List Bool)
    (total_rows : Nat) : Option (List Bool) :=
  let new_selection_vector := List.replicate total_rows true
  if selection_vector.length ≤ total_rows then
    some (selection_vector ++ new_selection_vector.drop selection_vector.length)
  else
    none

/-! ### Delta-kernel schema types -/

/-- `delta_kernel::schema::PrimitiveType`.  Decimal precision and scale are
`u8` in the source; they are modelled as `Nat` (values below 256). -/
inductive PrimitiveType where
  | string
  | long
  | integer
  | short
  | byte
  | float
  | double
  | boolean
  | binary
  | date
  | timestamp
  | timestampNtz
  | decimal (precision : Nat) (scale : Nat)
deriving DecidableEq, Repr

mutual
/-- `delta_kernel::schema::DataType`. -/
inductive DeltaDataType where
  | primitive (p : PrimitiveType)
  /-- `ArrayType { element_type, contains_null }` -/
  | array (elementType : DeltaDataType) (containsNull : Bool)
  /-- `StructType { fields }` -/
  | struct (fields : List DeltaStructField)
  /-- `MapType { key_type, value_type, value_contains_null }` -/
  | map (keyType : DeltaDataType) (valueType : DeltaDataType) (valueContainsNull : Bool)

/-- `delta_kernel::schema::StructField`. -/
inductive DeltaStructField where
  | mk (name : String) (dataType : DeltaDataType) (nullable : Bool)
end

def DeltaStructField.name : DeltaStructField → String
  | .mk n _ _ => n

def DeltaStructField.dataType : DeltaStructField → DeltaDataType
  | .mk _ dt _ => dt

def DeltaStructField.nullable : DeltaStructField → Bool
  | .mk _ _ nl => nl

/-! ### Arrow schema types -/

/-- `arrow::datatypes::TimeUnit` (only the variant the mapper produces). -/
inductive TimeUnit where
  | microsecond
deriving DecidableEq, Repr

mutual
/-- `arrow::datatypes::DataType`, restricted to the variants the mapper
produces.  `decimal128`'s scale is `i8` in Arrow, modelled as `Int`. -/
inductive ArrowDataType where
  | utf8
  | int64
  | int32
  | int16
  | int8
  | float32
  | float64
  | boolean
  | binary
  | date32
  | timestamp (unit : TimeUnit) (tz : Option String)
  | decimal128 (precision : Nat) (scale : Int)
  | list (item : ArrowField)
  | struct (fields : List ArrowField)
  /-- `DataType::Map(entries_field, keys_sorted)` -/
  | map (entries : ArrowField) (keysSorted : Bool)

/-- `arrow::datatypes::Field`: name, data type, nullability. -/
inductive ArrowField where
  | mk (name : String) (dataType : ArrowDataType) (nullable : Bool)
end

def ArrowField.name : ArrowField → String
  | .mk n _ _ => n

def ArrowField.dataType : ArrowField → ArrowDataType
  | .mk _ dt _ => dt

def ArrowField.nullable : ArrowField → Bool
  | .mk _ _ nl => nl

/-- The Rust cast `u8 as i8`: values below 128 unchanged, larger values wrap
to negatives (two's complement reinterpretation). -/
def u8AsI8 (s : Nat) : Int :=
  if s % 256 < 128 then (s % 256 : Int) else (s % 256 : Int) - 256

mutual
/-- `map_delta_data_type_to_arrow_data_type` from `deltatable.rs`.
Note the decimal arm is `DataType::Decimal128(*p, *s as i8)` (the source
carries `#[allow(clippy::cast_possible_wrap)]` for that cast). -/
def map_delta_data_type_to_arrow_data_type : DeltaDataType → ArrowDataType
  | .primitive .string => .utf8
  | .primitive .long => .int64
  | .primitive .integer => .int32
  | .primitive .short => .int16
  | .primitive .byte => .int8
  | .primitive .float => .float32
  | .primitive .double => .float64
  | .primitive .boolean => .boolean
  | .primitive .binary => .binary
  | .primitive .date => .date32
  | .primitive .timestamp => .timestamp .microsecond (some "UTC")
  | .primitive .timestampNtz => .timestamp .microsecond none
  | .primitive (.decimal p s) => .decimal128 p (u8AsI8 s)
  | .array elementType containsNull =>
      .list (.mk "item" (map_delta_data_type_to_arrow_data_type elementType) containsNull)
  | .struct fields => .struct (mapStructFields fields)
  | .map keyType valueType _ =>
      .map
        (.mk "key_value"
          (.struct
            [.mk "key" (map_delta_data_type_to_arrow_data_type keyType) false,
             .mk "value" (map_delta_data_type_to_arrow_data_type valueType) true])
          false)
        false

/-- The `for field in struct_type.fields()` loop of the struct arm. -/
def mapStructFields : List DeltaStructField → List ArrowField
  | [] => []
  | .mk n dt nl :: fs =>
      .mk n (map_delta_data_type_to_arrow_data_type dt) nl :: mapStructFields fs
end

/-! ### Snapshot and schema resolution -/

/-- The parts of `delta_kernel::snapshot::Snapshot` the provider reads:
`snapshot.schema()`'s ordered field list and
`snapshot.metadata().partition_columns`. -/
structure Snapshot where
  schemaFields : List DeltaStructField
  partitionColumns : List String

namespace DeltaTable

/-- `DeltaTable::get_schema`: map every field of the snapshot's schema, in
the schema's own order. -/
def get_schema (snapshot : Snapshot) : List ArrowField :=
  snapshot.schemaFields.map
    (fun f => .mk f.name (map_delta_data_type_to_arrow_data_type f.dataType) f.nullable)

/-- `DeltaTable::get_file_schema`: the snapshot's schema fields whose name
is not a partition column, mapped, in the schema's own order. -/
def get_file_schema (snapshot : Snapshot) : List ArrowField :=
  (snapshot.schemaFields.filter
      (fun f => !snapshot.partitionColumns.contains f.name)).map
    (fun f => .mk f.name (map_delta_data_type_to_arrow_data_type f.dataType) f.nullable)

/-- `DeltaTable::get_partition_schema`: for each declared partition column,
look the field up by name in the snapshot's schema (`schema.field(col)` on
a name-keyed field map) and map it; the source `unwrap()`s the lookup, so a
missing partition column panics (`none`). -/
def get_partition_schema (snapshot : Snapshot) : Option (List ArrowField) :=
  snapshot.partitionColumns.mapM
    (fun partition_col =>
      (snapshot.schemaFields.find? (fun f => f.name == partition_col)).map
        (fun f => ArrowField.mk f.name
          (map_delta_data_type_to_arrow_data_type f.dataType) f.nullable))

end DeltaTable

/-- `ensure_folder_location` from `deltatable.rs`.  Rust's
`table_location.ends_with('/')` (a single-character test) is the test that
the final character is `'/'`. -/
def ensure_folder_location (table_location : String) : String :=
  if table_location.data.getLast? = some '/' then table_location
  else table_location ++ "/"

/-- `project_delta_schema` from `deltatable.rs`: with a projection, index the
arrow schema at each projected position (`arrow_schema.field(*i)` panics when
out of range, modelled as `none`), look the field's name up in the delta
schema (`schema.field(name)`, an `Option`), and keep only the hits
(`filter_map`); without a projection, the delta schema unchanged. -/
def project_delta_schema (arrow_schema : List ArrowField)
    (schema : List DeltaStructField) (projections : Option (List Nat)) :
    Option (List DeltaStructField) :=
  match projections with
  | some projections =>
      (projections.mapM (fun i => arrow_schema[i]?)).map
        (fun projected =>
          projected.filterMap
            (fun af => schema.find? (fun f => f.name == af.name)))
  | none => some schema

/-! ### File enumeration (`ScanContext` / `handle_scan_file`) -/

/-- A decoded partition scalar (DataFusion `ScalarValue`): the raw string it
was parsed from, tagged with the target Arrow type. -/
structure Scalar where
  raw : String
  ty : ArrowDataType

/-- The parts of `GlobalScanState` that `handle_scan_file` reads. -/
structure ScanState where
  table_root : String
  partition_columns : List String
  logical_schema : List DeltaStructField

/-- One per-file visitation event from the log engine's
`visit_scan_files` callback: path, size, the string-encoded partition
values, and the outcome of `dv_info.get_selection_vector` for the file. -/
structure ScanFileEvent where
  path : String
  size : Nat
  partitionValues : List (String × String)
  dvResult : Except String (Option (List Bool))

/-- `PartitionFileContext` from `deltatable.rs`. -/
structure PartitionFileContext where
  path : String
  size : Nat
  partition_values : List Scalar
  selection_vector : Option (List Bool)

/-- The mutable accumulator of `ScanContext` (its read-only
`scan_state`/`engine` fields are lifted to parameters). -/
structure ScanContext where
  errs : List String
  files : List PartitionFileContext

/-- `HashMap` lookup, `partition_values[col]`; a missing key panics at the
call site (`Index` on `HashMap`), hence the caller treats `none` as panic. -/
def lookupStr (m : List (String × String)) (k : String) : Option String :=
  (m.find? (fun p => p.1 == k)).map (fun p => p.2)

/-- The partition-value decode of `handle_scan_file`: for every declared
partition column, fetch its string value (`partition_values[col]`, panics if
missing), fetch its field from `scan_state.logical_schema.fields[col]`
(name-keyed, panics if missing), and parse the string into the mapped Arrow
type with `ScalarValue::try_from_string(...).unwrap()`.  `tfs` is the
DataFusion parser; any `none` is a panic (`unwrap` on `Err`), modelled as an
overall `none`. -/
def decodePartitionValues (tfs : String → ArrowDataType → Option Scalar)
    (ss : ScanState) (partition_values : List (String × String)) :
    Option (List Scalar) :=
  ss.partition_columns.mapM
    (fun col =>
      match lookupStr partition_values col,
            ss.logical_schema.find? (fun f => f.name == col) with
      | some v, some f =>
          tfs v (map_delta_data_type_to_arrow_data_type f.dataType)
      | _, _ => none)

/-- `handle_scan_file` from `deltatable.rs`.  `parseUrl` models
`Url::parse` (returning `root_url.path()` on success).  A root-URL parse
error or a deletion-vector error is pushed onto `errs` and the callback
returns (enumeration continues); a partition-value decode failure is an
`unwrap()` panic (`none`).  On success the file is appended to `files`. -/
def handle_scan_file (parseUrl : String → Except String String)
    (tfs : String → ArrowDataType → Option Scalar) (ss : ScanState)
    (scan_context : ScanContext) (ev : ScanFileEvent) : Option ScanContext :=
  match parseUrl ss.table_root with
  | .error e =>
      some { scan_context with
        errs := scan_context.errs ++ ["Error parsing table root URL: " ++ e] }
  | .ok rootPath =>
      let path := rootPath ++ "/" ++ ev.path
      match decodePartitionValues tfs ss ev.partitionValues with
      | none => none
      | some pvs =>
          match ev.dvResult with
          | .error e =>
              some { scan_context with
                errs := scan_context.errs ++
                  ["Error getting selection vector: " ++ e] }
          | .ok sv =>
              some { scan_context with
                files := scan_context.files ++ [⟨path, ev.size, pvs, sv⟩] }

/-- The `visit_scan_files` loop of `DeltaTable::scan`: fold the callback
over every file event, threading the accumulator; a panic anywhere aborts
the whole fold. -/
def visit_scan_files (parseUrl : String → Except String String)
    (tfs : String → ArrowDataType → Option Scalar) (ss : ScanState)
    (scan_context : ScanContext) : List ScanFileEvent → Option ScanContext
  | [] => some scan_context
  | ev :: evs =>
      match handle_scan_file parseUrl tfs ss scan_context ev with
      | none => none
      | some ctx => visit_scan_files parseUrl tfs ss ctx evs

/-- The post-enumeration step of `DeltaTable::scan`: after the loop, if the
error list holds any error the scan returns the first one
(`scan_context.errs.into_iter().next()`), otherwise the collected file list
is used to build the plan. -/
def scan_collect_files (parseUrl : String → Except String String)
    (tfs : String → ArrowDataType → Option Scalar) (ss : ScanState)
    (events : List ScanFileEvent) :
    Option (Except String (List PartitionFileContext)) :=
  (visit_scan_files parseUrl tfs ss ⟨[], []⟩ events).map
    (fun ctx =>
      match ctx.errs with
      | e :: _ => Except.error e
      | [] => Except.ok ctx.files)

/-! ### Construction (`DeltaTable::from`, `DeltaTableFactory::create`) -/

/-- The log-engine boundary used by `DeltaTable::from`:
`Table::try_from_uri` (returning the table's resolved location),
`DefaultEngine::try_new`, and `table.snapshot(engine, None)`. -/
structure LogEngineOps where
  tryFromUri : String → Except String String
  engineNew : String → List (String × String) → Except String Unit
  snapshotOf : String → Except String Snapshot

/-- The fields `DeltaTable::from` computes. -/
structure DeltaTableModel where
  location : String
  arrow_schema : List ArrowField
  arrow_file_schema : List ArrowField
  arrow_partition_cols : List ArrowField
  delta_schema : List DeltaStructField

/-- The parts of `CreateExternalTable` the factory reads. -/
structure CreateExternalTableCmd where
  location : String
  options : List (String × String)

/-- `DeltaTable::from`: normalize the location, open the table, build the
engine, resolve the snapshot — each step's error is returned via `?` — then
derive the three schema views.  The `unwrap()` inside
`get_partition_schema` is a panic (`none`); every other failure is a
returned `Err`. -/
def DeltaTable.from (ops : LogEngineOps) (table_location : String)
    (storage_options : List (String × String)) :
    Option (Except String DeltaTableModel) :=
  match ops.tryFromUri (ensure_folder_location table_location) with
  | .error e => some (.error e)
  | .ok loc =>
      match ops.engineNew loc storage_options with
      | .error e => some (.error e)
      | .ok _ =>
          match ops.snapshotOf loc with
          | .error e => some (.error e)
          | .ok snapshot =>
              match DeltaTable.get_partition_schema snapshot with
              | none => none
              | some partition_cols =>
                  some (.ok
                    { location := loc
                      arrow_schema := DeltaTable.get_schema snapshot
                      arrow_file_schema := DeltaTable.get_file_schema snapshot
                      arrow_partition_cols := partition_cols
                      delta_schema := snapshot.schemaFields })

/-- `DeltaTableFactory::create`: call `DeltaTable::from` with the command's
location and options (fresh empty map when the options are empty), then
`Ok(Arc::new(provider.unwrap()))` — the `unwrap()` turns any construction
error into a panic (`none`); only a successful provider is ever returned. -/
def DeltaTableFactory.create (ops : LogEngineOps)
    (cmd : CreateExternalTableCmd) : Option (Except String DeltaTableModel) :=
  let provider :=
    if cmd.options.isEmpty then DeltaTable.from ops cmd.location []
    else DeltaTable.from ops cmd.location cmd.options
  match provider with
  | some (.ok p) => some (.ok p)
  | _ => none

/-! ## Claims -/

/-- C9: for every row group with zero rows, `get_row_group_access` returns
`Skip` (the all-`false` test, which holds vacuously on the empty slice, is
evaluated before the all-`true` test). -/
theorem empty_row_group_is_skipped (selection_vector : List Bool)
    (row_group_row_start : Nat)
    (_h : row_group_row_start ≤ selection_vector.length) :
    get_row_group_access selection_vector row_group_row_start 0 =
      RowGroupAccess.Skip := by
  simp [get_row_group_access]

theorem empty_row_group_is_skipped_witness :
    0 ≤ ([true, false] : List Bool).length ∧
    get_row_group_access [true, false] 0 0 = RowGroupAccess.Skip :=
  ⟨by decide, empty_row_group_is_skipped [true, false] 0 (by decide)⟩

/-- C10: `get_full_selection_vector` is total exactly when the raw vector is
no longer than the total row count: it then returns (without panic) a vector
of exactly `total_rows` entries; a strictly longer raw vector panics
(`copy_from_slice` length-check failure, modelled as `none`). -/
theorem get_full_selection_vector_total_iff (selection_vector : List Bool)
    (total_rows : Nat) :
    (selection_vector.length ≤ total_rows →
      ∃ full, get_full_selection_vector selection_vector total_rows = some full ∧
        full.length = total_rows) ∧
    (total_rows < selection_vector.length →
      get_full_selection_vector selection_vector total_rows = none) := by
  constructor
  · intro h
    refine ⟨selection_vector ++ (List.replicate total_rows true).drop
      selection_vector.length, ?_, ?_⟩
    · simp only [get_full_selection_vector, if_pos h]
    · simp only [List.length_append, List.length_drop, List.length_replicate]
      omega
  · intro h
    have hlt : ¬ selection_vector.length ≤ total_rows := by omega
    simp only [get_full_selection_vector, if_neg hlt]

theorem get_full_selection_vector_total_iff_witness :
    get_full_selection_vector [false] 3 = some [false, true, true] ∧
    get_full_selection_vector [false, true, false, true] 3 = none :=
  ⟨by
    obtain ⟨full, hf, hlen⟩ :=
      (get_full_selection_vector_total_iff [false] 3).1 (by decide)
    exact rfl,
   (get_full_selection_vector_total_iff [false, true, false, true] 3).2
     (by decide)⟩

/-- C3: a raw selection vector shorter than the file's total row count is
extended to exactly `total_rows` entries; original values keep their
positions and every added position is `true` (default-live). -/
theorem raw_selection_vector_padded_with_true (selection_vector : List Bool)
    (total_rows : Nat) (h : selection_vector.length < total_rows) :
    ∃ full, get_full_selection_vector selection_vector total_rows = some full ∧
      full.length = total_rows ∧
      (∀ i, i < selection_vector.length → full[i]? = selection_vector[i]?) ∧
      (∀ i, selection_vector.length ≤ i → i < total_rows →
        full[i]? = some true) := by
  refine ⟨selection_vector ++ (List.replicate total_rows true).drop
    selection_vector.length, ?_, ?_, ?_, ?_⟩
  · simp only [get_full_selection_vector, if_pos (Nat.le_of_lt h)]
  · simp only [List.length_append, List.length_drop, List.length_replicate]
    omega
  · intro i hi
    rw [List.getElem?_append_left hi]
  · intro i hi hi'
    rw [List.getElem?_append_right hi, List.getElem?_drop]
    rw [List.getElem?_replicate_of_lt (by omega)]

theorem raw_selection_vector_padded_with_true_witness :
    get_full_selection_vector [false, true] 4 =
      some [false, true, true, true] := by
  obtain ⟨full, hf, hlen, hpre, hpad⟩ :=
    raw_selection_vector_padded_with_true [false, true] 4 (by decide)
  exact rfl

/-- C1 (code bug): `DeltaTable::get_schema` keeps the snapshot schema's own
field order, so a partition column declared first in the log schema stays
first — the logical schema is not the file-physical fields followed by the
partition fields, contradicting the source's own comment ("add partition
columns at the end of the schema").  Evaluated at a two-field snapshot with
the partition column first. -/
theorem get_schema_keeps_partition_column_position :
    DeltaTable.get_schema
        ⟨[.mk "part" (.primitive .string) true,
          .mk "data" (.primitive .long) true], ["part"]⟩ =
      [.mk "part" .utf8 true, .mk "data" .int64 true] ∧
    DeltaTable.get_file_schema
        ⟨[.mk "part" (.primitive .string) true,
          .mk "data" (.primitive .long) true], ["part"]⟩ =
      [.mk "data" .int64 true] ∧
    DeltaTable.get_partition_schema
        ⟨[.mk "part" (.primitive .string) true,
          .mk "data" (.primitive .long) true], ["part"]⟩ =
      some [.mk "part" .utf8 true] ∧
    DeltaTable.get_schema
        ⟨[.mk "part" (.primitive .string) true,
          .mk "data" (.primitive .long) true], ["part"]⟩ ≠
      DeltaTable.get_file_schema
          ⟨[.mk "part" (.primitive .string) true,
            .mk "data" (.primitive .long) true], ["part"]⟩ ++
        [.mk "part" .utf8 true] := by
  refine ⟨rfl, rfl, rfl, fun h => ?_⟩
  have hn := congrArg (List.map ArrowField.name) h
  exact absurd hn (by decide)

/-- C2 (amended): on the row group's `[start, start+count)` slice of the
selection vector, `get_row_group_access` returns `Skip` when every slice
value is `false`; `Scan` when the row group is nonempty and every slice
value is `true`; and otherwise a `Selection` whose run-length selector,
when applied, reproduces the slice exactly — it selects exactly the
positions where the slice is `true` and skips exactly those where it is
`false`.  The slice `[true,true,true,false,true]` yields selector runs
select 3, skip 1, select 1.  (The original claim's `Scan` case is amended
to nonempty row groups: on an empty slice the all-`false` branch fires
first and the result is `Skip`.) -/
theorem get_row_group_access_classification (selection_vector : List Bool)
    (row_group_row_start row_group_num_rows : Nat)
    (h : row_group_row_start + row_group_num_rows ≤ selection_vector.length) :
    ((∀ b ∈ (selection_vector.drop row_group_row_start).take row_group_num_rows,
        b = false) →
      get_row_group_access selection_vector row_group_row_start
        row_group_num_rows = RowGroupAccess.Skip) ∧
    (0 < row_group_num_rows →
      (∀ b ∈ (selection_vector.drop row_group_row_start).take row_group_num_rows,
          b = true) →
      get_row_group_access selection_vector row_group_row_start
        row_group_num_rows = RowGroupAccess.Scan) ∧
    ((∃ b ∈ (selection_vector.drop row_group_row_start).take row_group_num_rows,
        b = true) →
      (∃ b ∈ (selection_vector.drop row_group_row_start).take row_group_num_rows,
        b = false) →
      get_row_group_access selection_vector row_group_row_start
          row_group_num_rows =
        RowGroupAccess.Selection (rowSelectionFromFilters
          ((selection_vector.drop row_group_row_start).take
            row_group_num_rows)) ∧
      applySelectors (rowSelectionFromFilters
          ((selection_vector.drop row_group_row_start).take
            row_group_num_rows)) =
        (selection_vector.drop row_group_row_start).take row_group_num_rows) ∧
    get_row_group_access [true, true, true, false, true] 0 5 =
      RowGroupAccess.Selection
        [RowSelector.select 3, RowSelector.skip 1, RowSelector.select 1] := by
  refine ⟨?_, ?_, ?_, by decide⟩
  · intro hall
    have hc : ((selection_vector.drop row_group_row_start).take
        row_group_num_rows).all (fun x => !x) = true :=
      List.all_eq_true.mpr (fun b hb => by rw [hall b hb]; rfl)
    simp [get_row_group_access, hc]
  · intro hpos hall
    have hlen : ((selection_vector.drop row_group_row_start).take
        row_group_num_rows).length = row_group_num_rows := by
      simp only [List.length_take, List.length_drop]
      omega
    have hne : (selection_vector.drop row_group_row_start).take
        row_group_num_rows ≠ [] := by
      intro hnil
      rw [hnil] at hlen
      simp at hlen
      omega
    obtain ⟨b, hb⟩ := List.exists_mem_of_ne_nil _ hne
    have hc1 : ¬ ((selection_vector.drop row_group_row_start).take
        row_group_num_rows).all (fun x => !x) = true := by
      intro hc
      have hb' := List.all_eq_true.mp hc b hb
      rw [hall b hb] at hb'
      simp at hb'
    have hc2 : ((selection_vector.drop row_group_row_start).take
        row_group_num_rows).all (fun x => x) = true :=
      List.all_eq_true.mpr (fun x hx => hall x hx)
    simp [get_row_group_access, hc1, hc2]
  · rintro ⟨bt, hbt, hbtt⟩ ⟨bf, hbf, hbff⟩
    have hc1 : ¬ ((selection_vector.drop row_group_row_start).take
        row_group_num_rows).all (fun x => !x) = true := by
      intro hc
      have := List.all_eq_true.mp hc bt hbt
      rw [hbtt] at this
      simp at this
    have hc2 : ¬ ((selection_vector.drop row_group_row_start).take
        row_group_num_rows).all (fun x => x) = true := by
      intro hc
      have := List.all_eq_true.mp hc bf hbf
      rw [hbff] at this
      simp at this
    exact ⟨by simp [get_row_group_access, hc1, hc2],
      applySelectors_rowSelectionFromFilters _⟩

theorem get_row_group_access_classification_witness :
    get_row_group_access [false, false] 0 2 = RowGroupAccess.Skip ∧
    get_row_group_access [true, true] 0 2 = RowGroupAccess.Scan ∧
    (get_row_group_access [true, true, true, false, true] 0 5 =
        RowGroupAccess.Selection (rowSelectionFromFilters
          ((([true, true, true, false, true] : List Bool).drop 0).take 5)) ∧
      applySelectors (rowSelectionFromFilters
          ((([true, true, true, false, true] : List Bool).drop 0).take 5)) =
        (([true, true, true, false, true] : List Bool).drop 0).take 5) :=
  ⟨(get_row_group_access_classification [false, false] 0 2 (by decide)).1
      (by decide),
   (get_row_group_access_classification [true, true] 0 2 (by decide)).2.1
      (by decide) (by decide),
   (get_row_group_access_classification [true, true, true, false, true] 0 5
        (by decide)).2.2.1
      ⟨true, by decide, rfl⟩ ⟨false, by decide, rfl⟩⟩

/-- C2 counterexample: a zero-row row group (start 0, count 0, within the
bounds of the empty selection vector) has every slice value vacuously
`true`, yet `get_row_group_access` returns `Skip`, not `Scan` as the claim
as stated requires. -/
theorem get_row_group_access_empty_all_true_not_scan :
    (0 + 0 ≤ ([] : List Bool).length) ∧
    (∀ b ∈ (([] : List Bool).drop 0).take 0, b = true) ∧
    get_row_group_access [] 0 0 ≠ RowGroupAccess.Scan := by
  exact ⟨by decide, by decide, by decide⟩

theorem mapStructFields_eq_map (fields : List DeltaStructField) :
    mapStructFields fields =
      fields.map (fun f =>
        ArrowField.mk f.name
          (map_delta_data_type_to_arrow_data_type f.dataType) f.nullable) := by
  induction fields with
  | nil => rfl
  | cons f fs ih =>
      cases f
      simp [mapStructFields, ih, DeltaStructField.name, DeltaStructField.dataType,
        DeltaStructField.nullable]

/-- C6 (amended): the type mapper is a total deterministic function given by
the fixed table — string→UTF-8, the four integer widths→matching signed
integers, float/double, boolean, binary, date→32-bit day count,
timestamp-with-timezone→microsecond timestamp tagged UTC,
timestamp-without-timezone→untagged microsecond timestamp; decimal(p,s)
maps to 128-bit decimal with precision p and scale `s as i8`, which equals
s whenever s < 128 (the u8→i8 cast wraps larger scale values).  Arrays map
to lists of the mapped element type preserving element nullability; structs
map fieldwise preserving name and nullability; maps map to a non-nullable
key/value struct pair with non-nullable key and nullable value. -/
theorem type_mapper_fixed_table :
    (∀ s : Nat, s < 128 → u8AsI8 s = s) ∧
    map_delta_data_type_to_arrow_data_type (.primitive .string) =
      .utf8 ∧
    map_delta_data_type_to_arrow_data_type (.primitive .long) = .int64 ∧
    map_delta_data_type_to_arrow_data_type (.primitive .integer) = .int32 ∧
    map_delta_data_type_to_arrow_data_type (.primitive .short) = .int16 ∧
    map_delta_data_type_to_arrow_data_type (.primitive .byte) = .int8 ∧
    map_delta_data_type_to_arrow_data_type (.primitive .float) = .float32 ∧
    map_delta_data_type_to_arrow_data_type (.primitive .double) = .float64 ∧
    map_delta_data_type_to_arrow_data_type (.primitive .boolean) = .boolean ∧
    map_delta_data_type_to_arrow_data_type (.primitive .binary) = .binary ∧
    map_delta_data_type_to_arrow_data_type (.primitive .date) = .date32 ∧
    map_delta_data_type_to_arrow_data_type (.primitive .timestamp) =
      .timestamp .microsecond (some "UTC") ∧
    map_delta_data_type_to_arrow_data_type (.primitive .timestampNtz) =
      .timestamp .microsecond none ∧
    (∀ p s : Nat, map_delta_data_type_to_arrow_data_type
        (.primitive (.decimal p s)) = .decimal128 p (u8AsI8 s)) ∧
    (∀ (elementType : DeltaDataType) (containsNull : Bool),
      map_delta_data_type_to_arrow_data_type (.array elementType containsNull) =
        .list (.mk "item"
          (map_delta_data_type_to_arrow_data_type elementType) containsNull)) ∧
    (∀ fields : List DeltaStructField,
      map_delta_data_type_to_arrow_data_type (.struct fields) =
        .struct (fields.map (fun f => ArrowField.mk f.name
          (map_delta_data_type_to_arrow_data_type f.dataType) f.nullable))) ∧
    (∀ (keyType valueType : DeltaDataType) (valueContainsNull : Bool),
      map_delta_data_type_to_arrow_data_type
          (.map keyType valueType valueContainsNull) =
        .map (.mk "key_value"
          (.struct
            [.mk "key" (map_delta_data_type_to_arrow_data_type keyType) false,
             .mk "value" (map_delta_data_type_to_arrow_data_type valueType)
               true])
          false)
        false) := by
  refine ⟨?_, rfl, rfl, rfl, rfl, rfl, rfl, rfl, rfl, rfl, rfl, rfl, rfl,
    fun p s => rfl, fun et cn => rfl, ?_, fun kt vt vcn => rfl⟩
  · intro s hs
    have hm : s % 256 = s := Nat.mod_eq_of_lt (by omega)
    simp [u8AsI8, hm, hs]
    omega
  · intro fields
    simp [map_delta_data_type_to_arrow_data_type, mapStructFields_eq_map]

theorem type_mapper_fixed_table_witness : u8AsI8 38 = 38 :=
  type_mapper_fixed_table.1 38 (by decide)

/-- C6 counterexample: the decimal type with precision 10 and scale 200 (a
representable u8 scale) maps to 128-bit decimal with scale -56, not 200:
the source's `*s as i8` cast wraps scales of 128 or more. -/
theorem type_mapper_decimal_scale_wraps :
    map_delta_data_type_to_arrow_data_type (.primitive (.decimal 10 200)) =
      .decimal128 10 (-56) ∧
    map_delta_data_type_to_arrow_data_type (.primitive (.decimal 10 200)) ≠
      .decimal128 10 200 := by
  have hs : u8AsI8 200 = -56 := by decide
  have hmap : map_delta_data_type_to_arrow_data_type
      (.primitive (.decimal 10 200)) = .decimal128 10 (-56) := by
    rw [map_delta_data_type_to_arrow_data_type, hs]
  refine ⟨hmap, ?_⟩
  rw [hmap]
  intro hcontra
  injection hcontra with h1 h2
  exact absurd h2 (by decide)

theorem mapM_eq_some_filterMap {α β : Type} (f : α → Option β) (l : List α)
    (h : ∀ a ∈ l, (f a).isSome) : l.mapM f = some (l.filterMap f) := by
  induction l with
  | nil => rfl
  | cons a as ih =>
      obtain ⟨b, hb⟩ := Option.isSome_iff_exists.mp (h a (List.mem_cons_self a as))
      rw [List.mapM_cons, hb, ih (fun x hx => h x (List.mem_cons_of_mem a hx)),
        List.filterMap_cons_some hb]
      rfl

theorem find?_name_getElem (l : List DeltaStructField)
    (hnodup : (l.map DeltaStructField.name).Nodup) (i : Nat) (hi : i < l.length) :
    l.find? (fun f => f.name == l[i].name) = some l[i] := by
  induction l generalizing i with
  | nil => simp at hi
  | cons f fs ih =>
      rw [List.map_cons, List.nodup_cons] at hnodup
      cases i with
      | zero =>
          simp only [List.getElem_cons_zero]
          exact List.find?_cons_of_pos _ (by simp)
      | succ j =>
          have hj : j < fs.length := by
            simp only [List.length_cons] at hi
            omega
          simp only [List.getElem_cons_succ]
          have hne : (f.name == fs[j].name) = false := by
            rw [beq_eq_false_iff_ne]
            intro he
            exact hnodup.1 (he ▸ List.mem_map_of_mem _ (fs.getElem_mem hj))
          simp only [List.find?, hne]
          exact ih hnodup.2 j hj

/-- C5 (amended): with a projection whose indices are in range (and
distinct schema field names), the format-scoped schema request built by
`project_delta_schema` contains exactly the snapshot's table-format fields
at the projected positions — including projected partition columns, since
each projected logical field is looked up by name in the snapshot's full
table-format schema, which contains the partition columns; only a name
missing from that schema would be silently omitted. -/
theorem project_delta_schema_resolves_all_projected_fields
    (snapshot : Snapshot)
    (hnodup : (snapshot.schemaFields.map DeltaStructField.name).Nodup)
    (projections : List Nat)
    (hrange : ∀ i ∈ projections, i < snapshot.schemaFields.length) :
    project_delta_schema (DeltaTable.get_schema snapshot)
        snapshot.schemaFields (some projections) =
      some (projections.filterMap (fun i => snapshot.schemaFields[i]?)) := by
  have harrow : ∀ (i : Nat) (hi : i < snapshot.schemaFields.length),
      (DeltaTable.get_schema snapshot)[i]? =
        some (ArrowField.mk snapshot.schemaFields[i].name
          (map_delta_data_type_to_arrow_data_type
            snapshot.schemaFields[i].dataType)
          snapshot.schemaFields[i].nullable) := by
    intro i hi
    simp [DeltaTable.get_schema, List.getElem?_eq_getElem hi]
  have hsome : ∀ i ∈ projections, ((DeltaTable.get_schema snapshot)[i]?).isSome := by
    intro i hip
    rw [harrow i (hrange i hip)]
    rfl
  simp only [project_delta_schema, mapM_eq_some_filterMap _ _ hsome,
    Option.map_some']
  rw [List.filterMap_filterMap]
  refine congrArg some (List.filterMap_congr ?_)
  intro i hip
  have hi := hrange i hip
  rw [harrow i hi, List.getElem?_eq_getElem hi]
  simp only [Option.bind_some, ArrowField.name]
  exact find?_name_getElem _ hnodup i hi

theorem project_delta_schema_resolves_all_projected_fields_witness :
    project_delta_schema
        (DeltaTable.get_schema
          ⟨[.mk "data" (.primitive .long) true,
            .mk "part" (.primitive .string) false], ["part"]⟩)
        [DeltaStructField.mk "data" (.primitive .long) true,
         DeltaStructField.mk "part" (.primitive .string) false]
        (some [1, 0]) =
      some [DeltaStructField.mk "part" (.primitive .string) false,
        DeltaStructField.mk "data" (.primitive .long) true] := by
  have h := project_delta_schema_resolves_all_projected_fields
    ⟨[.mk "data" (.primitive .long) true,
      .mk "part" (.primitive .string) false], ["part"]⟩
    (by simp [DeltaStructField.name]) [1, 0] (by decide)
  exact h

/-- C5 counterexample: projecting one data column and one partition column
(the snapshot's field list is `[data, part]` with partition column `part`,
projection indices `[0, 1]`) produces a schema request containing BOTH
columns — the partition column is found by name in the full table-format
schema and is not omitted, so the request is not "only the data column". -/
theorem project_delta_schema_keeps_projected_partition_column :
    project_delta_schema
        (DeltaTable.get_schema
          ⟨[.mk "data" (.primitive .long) true,
            .mk "part" (.primitive .string) false], ["part"]⟩)
        [DeltaStructField.mk "data" (.primitive .long) true,
         DeltaStructField.mk "part" (.primitive .string) false]
        (some [0, 1]) =
      some [DeltaStructField.mk "data" (.primitive .long) true,
        DeltaStructField.mk "part" (.primitive .string) false] ∧
    project_delta_schema
        (DeltaTable.get_schema
          ⟨[.mk "data" (.primitive .long) true,
            .mk "part" (.primitive .string) false], ["part"]⟩)
        [DeltaStructField.mk "data" (.primitive .long) true,
         DeltaStructField.mk "part" (.primitive .string) false]
        (some [0, 1]) ≠
      some [DeltaStructField.mk "data" (.primitive .long) true] := by
  refine ⟨rfl, fun hcontra => ?_⟩
  rw [show project_delta_schema
      (DeltaTable.get_schema
        ⟨[.mk "data" (.primitive .long) true,
          .mk "part" (.primitive .string) false], ["part"]⟩)
      [DeltaStructField.mk "data" (.primitive .long) true,
       DeltaStructField.mk "part" (.primitive .string) false]
      (some [0, 1]) =
    some [DeltaStructField.mk "data" (.primitive .long) true,
      DeltaStructField.mk "part" (.primitive .string) false] from rfl] at hcontra
  have hlen := congrArg (fun o => (Option.map List.length o)) hcontra
  simp at hlen

/-- C4: a deletion-vector materialization failure for one file is appended
to the scan context's explicit error list and the callback returns normally
(no panic, no abort), so enumeration proceeds through the remaining files
(`visit_scan_files` decomposes sequentially over the event list); and once
enumeration completes with a non-empty error list, the scan returns the
first collected error — never a partial file list. -/
theorem dv_error_collected_and_scan_fails
    (parseUrl : String → Except String String)
    (tfs : String → ArrowDataType → Option Scalar) (ss : ScanState)
    (root : String) (hroot : parseUrl ss.table_root = Except.ok root) :
    (∀ (ctx : ScanContext) (ev : ScanFileEvent) (e : String)
        (pvs : List Scalar),
      decodePartitionValues tfs ss ev.partitionValues = some pvs →
      ev.dvResult = Except.error e →
      handle_scan_file parseUrl tfs ss ctx ev =
        some { ctx with errs := ctx.errs ++
          ["Error getting selection vector: " ++ e] }) ∧
    (∀ (ctx : ScanContext) (l1 l2 : List ScanFileEvent),
      visit_scan_files parseUrl tfs ss ctx (l1 ++ l2) =
        (visit_scan_files parseUrl tfs ss ctx l1).bind
          (fun c => visit_scan_files parseUrl tfs ss c l2)) ∧
    (∀ (events : List ScanFileEvent) (ctx' : ScanContext) (e : String)
        (rest : List String),
      visit_scan_files parseUrl tfs ss ⟨[], []⟩ events = some ctx' →
      ctx'.errs = e :: rest →
      scan_collect_files parseUrl tfs ss events =
          some (Except.error e) ∧
        ∀ files, scan_collect_files parseUrl tfs ss events ≠
          some (Except.ok files)) := by
  refine ⟨?_, ?_, ?_⟩
  · intro ctx ev e pvs hdec hdv
    simp [handle_scan_file, hroot, hdec, hdv]
  · intro ctx l1 l2
    induction l1 generalizing ctx with
    | nil => simp [visit_scan_files]
    | cons ev evs ih =>
        simp only [List.cons_append, visit_scan_files]
        cases handle_scan_file parseUrl tfs ss ctx ev with
        | none => rfl
        | some c => exact ih c
  · intro events ctx' e rest hvisit hcase
    refine ⟨?_, ?_⟩
    · simp [scan_collect_files, hvisit, hcase]
    · intro files
      simp [scan_collect_files, hvisit, hcase]

theorem dv_error_collected_and_scan_fails_witness :
    scan_collect_files (fun s => Except.ok s)
        (fun v t => some ⟨v, t⟩)
        ⟨"/table", ["p"], [.mk "p" (.primitive .string) true]⟩
        [⟨"f1", 10, [("p", "a")], Except.ok none⟩,
         ⟨"f2", 20, [("p", "b")], Except.error "dv boom"⟩,
         ⟨"f3", 30, [("p", "c")], Except.ok (some [true])⟩] =
      some (Except.error "Error getting selection vector: dv boom") ∧
    scan_collect_files (fun s => Except.ok s)
        (fun v t => some ⟨v, t⟩)
        ⟨"/table", ["p"], [.mk "p" (.primitive .string) true]⟩
        [⟨"f1", 10, [("p", "a")], Except.ok none⟩,
         ⟨"f2", 20, [("p", "b")], Except.error "dv boom"⟩,
         ⟨"f3", 30, [("p", "c")], Except.ok (some [true])⟩] ≠
      some (Except.ok []) :=
  have h := (dv_error_collected_and_scan_fails (fun s => Except.ok s)
      (fun v t => some ⟨v, t⟩)
      ⟨"/table", ["p"], [.mk "p" (.primitive .string) true]⟩
      "/table" rfl).2.2
    [⟨"f1", 10, [("p", "a")], Except.ok none⟩,
     ⟨"f2", 20, [("p", "b")], Except.error "dv boom"⟩,
     ⟨"f3", 30, [("p", "c")], Except.ok (some [true])⟩]
    ⟨["Error getting selection vector: dv boom"],
     [⟨"/table" ++ "/" ++ "f1", 10, [⟨"a", .utf8⟩], none⟩,
      ⟨"/table" ++ "/" ++ "f3", 30, [⟨"c", .utf8⟩], some [true]⟩]⟩
    "Error getting selection vector: dv boom" [] rfl rfl
  ⟨h.1, h.2 []⟩

/-- C7 (code bug): a partition-value decode failure during file enumeration
is an `unwrap()` panic inside the visit callback: the scan aborts without a
typed error being recorded or returned through the provider boundary
(modelled: the callback and the whole enumeration evaluate to `none`, never
to an `Except.error`).  Evaluated at a file whose partition-column string
"abc" fails to parse into the mapped scalar type. -/
theorem partition_decode_failure_panics :
    handle_scan_file (fun s => Except.ok s)
        (fun v _ => if v == "abc" then none else some ⟨v, ArrowDataType.utf8⟩)
        ⟨"/table", ["p"], [.mk "p" (.primitive .long) true]⟩
        ⟨[], []⟩ ⟨"f1", 10, [("p", "abc")], Except.ok none⟩ = none ∧
    visit_scan_files (fun s => Except.ok s)
        (fun v _ => if v == "abc" then none else some ⟨v, ArrowDataType.utf8⟩)
        ⟨"/table", ["p"], [.mk "p" (.primitive .long) true]⟩
        ⟨[], []⟩ [⟨"f1", 10, [("p", "abc")], Except.ok none⟩] = none ∧
    scan_collect_files (fun s => Except.ok s)
        (fun v _ => if v == "abc" then none else some ⟨v, ArrowDataType.utf8⟩)
        ⟨"/table", ["p"], [.mk "p" (.primitive .long) true]⟩
        [⟨"f1", 10, [("p", "abc")], Except.ok none⟩] = none :=
  ⟨rfl, rfl, rfl⟩

/-- C8 (code bug): when the log cannot be opened at the normalized location,
`DeltaTable::from` does fail with a returned error, but
`DeltaTableFactory::create` calls `.unwrap()` on the result and panics
instead of returning that error to its caller (modelled: `from` evaluates
to `some (Except.error ..)` while `create` evaluates to `none`, never to
the error).  With a log engine that opens the location, `create` returns
the constructed snapshot-backed provider. -/
theorem factory_create_panics_on_open_failure :
    DeltaTable.from
        ⟨fun _ => Except.error "log open failed",
         fun _ _ => Except.ok (), fun _ => Except.error "no snapshot"⟩
        "s3://bucket" [] = some (Except.error "log open failed") ∧
    DeltaTableFactory.create
        ⟨fun _ => Except.error "log open failed",
         fun _ _ => Except.ok (), fun _ => Except.error "no snapshot"⟩
        ⟨"s3://bucket", []⟩ = none ∧
    DeltaTableFactory.create
        ⟨fun s => Except.ok s, fun _ _ => Except.ok (),
         fun _ => Except.ok ⟨[.mk "data" (.primitive .long) true], []⟩⟩
        ⟨"s3://bucket", []⟩ =
      some (Except.ok
        { location := "s3://bucket/"
          arrow_schema := [.mk "data" .int64 true]
          arrow_file_schema := [.mk "data" .int64 true]
          arrow_partition_cols := []
          delta_schema := [.mk "data" (.primitive .long) true] }) :=
  ⟨rfl, rfl, rfl⟩

end DeltaScan
